import Mathlib

/-!
Verification development for the GeneSearch evidence-aggregation pipeline
(src/agents/Gene_search/worker.py, models.py, tooling.py).

The embedding models raw JSON tool outputs as an inductive value type,
the pydantic record models as Lean structures, and the worker functions
(execute_tool_parallel, execute_tools_parallel, convert_to_structured_result,
determine_tools_to_use, search) as Lean functions.  Fallible Python code
(attribute errors on non-dict values, pydantic validation errors) is embedded
in the Except monad.  Network calls and LLM calls are abstracted as outcome
parameters.  Wall-clock durations are carried as integers; timestamps, JSON
floats and JSON booleans are omitted because no verified claim observes them.
-/

namespace GeneSearch

/-- Raw JSON-like values produced by the tool wrappers: strings, integers,
null, arrays, and objects (objects are insertion-ordered key-value lists,
matching Python dicts). -/
inductive RVal where
  | s (v : String)
  | i (v : Int)
  | null
  | l (items : List RVal)
  | o (fields : List (String × RVal))

/-- A raw JSON object, as the mapper receives from the wrappers. -/
abbrev RObj := List (String × RVal)

/-- Dictionary lookup, the Python d.get(k) returning None when the key is
absent.  The first binding wins, as in a Python dict, whose keys are unique. -/
def RObj.get (e : RObj) (k : String) : Option RVal :=
  (e.find? (fun p => p.1 == k)).map (fun p => p.2)

/-- Dictionary lookup with a default, the Python d.get(k, dflt). -/
def RObj.getD (e : RObj) (k : String) (dflt : RVal) : RVal :=
  (RObj.get e k).getD dflt

/-- Python truthiness of a raw value: empty strings, zero, null, empty lists
and empty objects are falsy. -/
def truthyV : RVal → Bool
  | .s v => v ≠ ""
  | .i v => v ≠ 0
  | .null => false
  | .l items => !items.isEmpty
  | .o fields => !fields.isEmpty

/-- Python truthiness of an optional raw value (None is falsy). -/
def truthy : Option RVal → Bool
  | none => false
  | some v => truthyV v

/-- The Python expression a or b on raw values: a when a is truthy, else b. -/
def pyOr (a b : Option RVal) : Option RVal :=
  if truthy a then a else b

/-- The Python expression a or b where evaluating b may raise; b is evaluated
only when a is falsy, matching the short-circuit in the source. -/
def pyOrE (a : Option RVal) (b : Except String (Option RVal)) :
    Except String (Option RVal) :=
  if truthy a then .ok a else b

/-- The nested access entry.get(k, dict()).get(sub) from the source: a missing
key defaults to an empty dict, a non-dict value raises AttributeError when
.get is called on it. -/
def nestedGetD (e : RObj) (k sub : String) : Except String (Option RVal) :=
  match RObj.get e k with
  | none => .ok none
  | some (.o f) => .ok (RObj.get f sub)
  | some _ => .error "AttributeError: value has no attribute get"

/-- Python iteration over a raw value: lists yield their items, dicts yield
their keys, strings yield their characters, other values raise TypeError. -/
def pyIter : RVal → Except String (List RVal)
  | .l items => .ok items
  | .o fields => .ok (fields.map (fun p => RVal.s p.1))
  | .s v => .ok (v.toList.map (fun c => RVal.s (String.singleton c)))
  | _ => .error "TypeError: value is not iterable"

/-- Accessing .get on a raw value: only dicts support it, everything else
raises AttributeError. -/
def asDict : RVal → Except String RObj
  | .o f => .ok f
  | _ => .error "AttributeError: value has no attribute get"

/-- Using a raw value as a dict key: lists and dicts are unhashable and raise
TypeError; strings, integers and null are hashable. -/
def checkHashable : RVal → Except String Unit
  | .l _ => .error "TypeError: unhashable type list"
  | .o _ => .error "TypeError: unhashable type dict"
  | _ => .ok ()

/-- Python equality between dict keys.  Keys reaching this comparison are
hashable scalars (checkHashable has already rejected lists and dicts), and on
strings, integers and null Python equality distinguishes the types, so the
cross-constructor cases are false; the list and dict cases are unreachable. -/
def RVal.eqKey : RVal → RVal → Bool
  | .s a, .s b => a == b
  | .i a, .i b => a == b
  | .null, .null => true
  | _, _ => false

/-- Pydantic validation of an Optional str field value: None passes through,
strings pass through, anything else is a validation error (pydantic v2 does
not coerce non-strings to str). -/
def pyFieldStr : Option RVal → Except String (Option RVal)
  | none => .ok none
  | some .null => .ok none
  | some (.s v) => .ok (some (.s v))
  | some _ => .error "ValidationError: string expected"

/-- Pydantic validation of an Optional int field value: None passes, integers
pass, integer-shaped strings are coerced in lax mode, anything else errors. -/
def pyFieldInt : Option RVal → Except String (Option RVal)
  | none => .ok none
  | some .null => .ok none
  | some (.i n) => .ok (some (.i n))
  | some (.s v) =>
      match v.toInt? with
      | some n => .ok (some (.i n))
      | none => .error "ValidationError: integer expected"
  | some _ => .error "ValidationError: integer expected"

/-- Pydantic validation of a required str field: only a string passes. -/
def pyValStr : Option RVal → Except String String
  | some (.s v) => .ok v
  | _ => .error "ValidationError: required string field"

/-- Pydantic validation of an Optional str field, returning a typed value. -/
def pyValStrOpt : Option RVal → Except String (Option String)
  | none => .ok none
  | some .null => .ok none
  | some (.s v) => .ok (some v)
  | some _ => .error "ValidationError: string expected"

/-! Pydantic record models from models.py.  GeneHit optional fields hold raw
values because the worker mutates them by plain attribute assignment, which
pydantic does not validate (validate_assignment is off), so raw values can be
stored there; constructor paths store validated values.  The timestamp fields
are omitted. -/

/-- The GeneHit model: gene_id and source are required strings, the rest is
optional. -/
structure GeneHit where
  gene_id : String
  symbol : Option RVal := none
  description : Option RVal := none
  species : Option RVal := none
  chromosome : Option RVal := none
  start : Option RVal := none
  «end» : Option RVal := none
  source : String

/-- The GWASHit model: gene_name and pvalue are required.  The mapper never
constructs this model successfully (see buildGWASHit); pvalue is a float in
the source and is carried as an integer stand-in here since no constructed
value ever exists. -/
structure GWASHit where
  gene_name : String
  pvalue : Int
  trait : Option String := none
  variant_id : Option String := none
  effect_allele : Option String := none
  sample_size : Option Int := none
  pubmed_id : Option String := none
  study_accession : Option String := none

/-- The GOAnnot model: every field is optional. -/
structure GOAnnot where
  go_id : Option String := none
  term : Option String := none
  aspect : Option String := none
  evidence_code : Option String := none
  reference : Option String := none
  qualifier : Option String := none

/-- The Pathway model: pathway_id is required, database defaults to KEGG. -/
structure Pathway where
  pathway_id : String
  description : Option String := none
  database : Option String := some "KEGG"

/-- The PubMedSummary model: pmid and title are required strings. -/
structure PubMedSummary where
  pmid : String
  title : String
  abstract : Option String := none
  doi : Option String := none
  url : Option String := none
  journal : Option String := none
  pubdate : Option String := none
  authors : Option (List String) := none

/-- The ToolExecutionMetadata model: success defaults to true and error to
none; execution_time is an integer stand-in for the float seconds. -/
structure ToolExecutionMetadata where
  tool : String
  execution_time : Int
  success : Bool := true
  error : Option String := none
  prompt_tokens : Option Int := none
  completion_tokens : Option Int := none
  rows_returned : Option Int := none

/-- The GeneSearchResult model returned by the mapper; timestamp omitted. -/
structure GeneSearchResult where
  user_trait : String
  explanation : Option String := none
  genes : List GeneHit := []
  gwas_hits : List GWASHit := []
  go_annotations : List GOAnnot := []
  pathways : List Pathway := []
  pubmed_summaries : List PubMedSummary := []
  metadata : List ToolExecutionMetadata := []
  execution_time : Int := 0

/-! Tool tables from tooling.py and the dispatch sets from worker.py. -/

/-- The keys of ALL_TOOLS_DICT, in source order. -/
def allToolNames : List String :=
  ["pubmed_search", "pubmed_fetch_summaries", "ensembl_search_genes",
   "ensembl_gene_info", "ensembl_orthologs", "gramene_gene_symbol_search",
   "gramene_gene_search", "gramene_gene_lookup", "gwas_hits",
   "gwas_trait_search", "gwas_advanced_search", "gwas_trait_info",
   "quickgo_annotations", "kegg_pathways", "kegg_gene_info", "kegg_convert_id"]

/-- The gene-list-shaped tools handled by the first mapper branch. -/
def geneListTools : List String :=
  ["ensembl_search_genes", "gramene_gene_search", "gramene_gene_symbol_search"]

/-- The GWAS-shaped tools handled by one mapper branch. -/
def gwasTools : List String :=
  ["gwas_hits", "gwas_trait_search", "gwas_advanced_search"]

/-- The fixed fallback tool set used when planning selects nothing or the
planning call raises. -/
def fallbackTools : List String :=
  ["pubmed_search", "gramene_gene_search", "ensembl_search_genes",
   "gwas_trait_search", "quickgo_annotations"]

/-! Retry policy of the HTTP helpers in tooling.py. -/

/-- Outcome of one HTTP attempt inside the retry loop: a response value, or a
raised transport exception. -/
inductive AttemptResult where
  | ok (resp : RVal)
  | exn (msg : String)

/-- The retry bound from tooling.py. -/
def _MAX_RETRIES : Nat := 3

/-- The backoff base from tooling.py (2.0 in the source; the computed delays
are exact integer powers, carried as naturals here). -/
def _BACKOFF_BASE : Nat := 2

/-- Whether an attempt raised. -/
def attemptFails : AttemptResult → Bool
  | .exn _ => true
  | .ok _ => false

/-- The retry loop shared by the _get and _post helpers.  Attempt number
tryIdx (0-based) runs; on failure the counter becomes tryIdx + 1 and when it
exceeds _MAX_RETRIES the exception is re-raised, otherwise the loop sleeps
for _BACKOFF_BASE to the power (attempt - 1) seconds and retries.  The second
component records the sleep durations.  The fuel argument only bounds the
recursion; with fuel at least _MAX_RETRIES - tryIdx the zero-fuel case is
unreachable because the counter check fires first. -/
def retryFrom (attempts : Nat → AttemptResult) :
    Nat → Nat → Except String RVal × List Nat
  | tryIdx, fuel =>
    match attempts tryIdx with
    | .ok r => (.ok r, [])
    | .exn msg =>
      if tryIdx + 1 > _MAX_RETRIES then (.error msg, [])
      else
        match fuel with
        | 0 => (.error msg, [])
        | fuel' + 1 =>
          let rest := retryFrom attempts (tryIdx + 1) fuel'
          (rest.1, _BACKOFF_BASE ^ tryIdx :: rest.2)

/-- The _get helper: run the retry loop from the first attempt. -/
def http_get_retry (attempts : Nat → AttemptResult) :
    Except String RVal × List Nat :=
  retryFrom attempts 0 _MAX_RETRIES

/-- The _post helper implements the identical loop with the same constants. -/
def http_post_retry (attempts : Nat → AttemptResult) :
    Except String RVal × List Nat :=
  retryFrom attempts 0 _MAX_RETRIES

/-! Tool execution, worker.py execute_tool_parallel and
execute_tools_parallel. -/

/-- Outcome of invoking the underlying wrapper function (the network call):
either a raw value or a raised exception message. -/
inductive CallOutcome where
  | ok (v : RVal)
  | exn (msg : String)

/-- One planned tool call, with the abstracted behavior of its wrapper. -/
structure ToolCallSpec where
  tool_name : String
  arguments : List (String × RVal)
  duration : Int
  outcome : CallOutcome

/-- The per-call result dict built by execute_tool_parallel. -/
structure ToolResult where
  tool_name : String
  success : Bool
  result : Option RVal
  arguments : List (String × RVal)
  execution_time : Int
  error : Option String

/-- execute_tool_parallel: an unknown tool name raises ValueError inside the
try block and is caught like any other exception, yielding a failure record;
otherwise the wrapper runs and its exception, if any, is caught the same
way. -/
def execute_tool_parallel (spec : ToolCallSpec) : ToolResult :=
  if spec.tool_name ∈ allToolNames then
    match spec.outcome with
    | .ok v =>
      { tool_name := spec.tool_name, success := true, result := some v,
        arguments := spec.arguments, execution_time := spec.duration,
        error := none }
    | .exn m =>
      { tool_name := spec.tool_name, success := false, result := none,
        arguments := spec.arguments, execution_time := spec.duration,
        error := some m }
  else
    { tool_name := spec.tool_name, success := false, result := none,
      arguments := spec.arguments, execution_time := spec.duration,
      error := some ("Unknown tool: " ++ spec.tool_name) }

/-- The body of the thread-pool block: all calls are submitted and the
results are collected in completion order.  The completion order is a
permutation of the submission indices, supplied here as a parameter since the
scheduler decides it. -/
def executorResults (calls : List ToolCallSpec)
    (completion : List Nat) : List ToolResult :=
  completion.filterMap (fun i => (calls[i]?).map execute_tool_parallel)

/-- execute_tools_parallel: the thread pool is constructed with max_workers
equal to the minimum of the call count and 8, so an empty planned call list
makes the constructor raise ValueError (max_workers must be positive) before
any call runs; otherwise all calls are submitted and collected in completion
order. -/
def execute_tools_parallel (calls : List ToolCallSpec)
    (completion : List Nat) : Except String (List ToolResult) :=
  if calls.isEmpty then .error "ValueError: max_workers must be greater than 0"
  else .ok (executorResults calls completion)

/-! The evidence mapper, worker.py convert_to_structured_result.  The running
state is split into the evidence part (the seen_genes dict and the four
append-only evidence lists) and the metadata list; the loop body appends one
metadata record per tool result and then updates the evidence part, and a
raised exception discards the whole conversion, so the split is equivalent to
the single loop of the source (proved below as a lemma). -/

/-- The evidence part of the conversion state: the seen_genes dict (an
insertion-ordered key-value list, keyed by the raw gene identifier) and the
four unconditionally-appended evidence lists. -/
structure EvidenceState where
  seen_genes : List (RVal × GeneHit) := []
  gwas_hits : List GWASHit := []
  go_annotations : List GOAnnot := []
  pathways : List Pathway := []
  pubmed_summaries : List PubMedSummary := []

/-- Store under a key in the seen_genes dict: update in place when the key is
present (keeping the original key object and position, as a Python dict
does), else append. -/
def dictSet (acc : List (RVal × GeneHit)) (k : RVal) (v : GeneHit) :
    List (RVal × GeneHit) :=
  if (acc.find? (fun p => RVal.eqKey p.1 k)).isSome then
    acc.map (fun p => if RVal.eqKey p.1 k then (p.1, v) else p)
  else acc ++ [(k, v)]

/-- Prefix test over the character lists (the Python startswith; the
character-list form reduces inside the kernel). -/
def strStartsWith (s pre : String) : Bool :=
  pre.toList.isPrefixOf s.toList

/-- The source tag chosen for the gene-list branch: ensembl when the tool
name starts with ensembl, else gramene. -/
def geneListSource (tool_name : String) : String :=
  if strStartsWith tool_name "ensembl" then "ensembl" else "gramene"

/-- The GeneHit constructor call of the gene-list branch: every keyword is a
fallback chain of flat lookups (the species and coordinate chains fall back
to a nested lookup, evaluated only when the flat one is falsy), and pydantic
validates each field.  When several computations or validations fail the
source reports the first in its own evaluation order and this embedding the
first in the order written here; the success and failure cases coincide. -/
def buildGeneHitFromEntry (src : String) (entry : RObj) (gidStr : String) :
    Except String GeneHit := do
  let symbol ← pyFieldStr (pyOr (RObj.get entry "display_id")
    (pyOr (RObj.get entry "symbol") (RObj.get entry "name")))
  let description ← pyFieldStr (pyOr (RObj.get entry "description")
    (pyOr (RObj.get entry "name") (RObj.get entry "title")))
  let speciesRaw ← pyOrE (RObj.get entry "species")
    (nestedGetD entry "taxon" "scientific_name")
  let species ← pyFieldStr speciesRaw
  let chromosome ← pyFieldStr (pyOr (RObj.get entry "seq_region_name")
    (RObj.get entry "chromosome"))
  let startRaw ← pyOrE (RObj.get entry "start")
    (nestedGetD entry "location" "start")
  let start ← pyFieldInt startRaw
  let endRaw ← pyOrE (RObj.get entry "end") (nestedGetD entry "location" "end")
  let endv ← pyFieldInt endRaw
  return { gene_id := gidStr, symbol := symbol, description := description,
           species := species, chromosome := chromosome, start := start,
           «end» := endv, source := src }

/-- One entry of the gene-list branch: compute the identifier fallback chain;
a falsy identifier skips the entry; an identifier already in seen_genes skips
the entry entirely (no field merge); otherwise a fresh GeneHit is built and
inserted. -/
def processGeneListEntry (src : String) (acc : List (RVal × GeneHit))
    (entryRaw : RVal) : Except String (List (RVal × GeneHit)) := do
  let entry ← asDict entryRaw
  let gene_id := pyOr (RObj.get entry "id")
    (pyOr (RObj.get entry "gene_id") (RObj.get entry "_id"))
  match gene_id with
  | none => return acc
  | some gid =>
    if truthyV gid = false then return acc
    else do
      let _ ← checkHashable gid
      if (acc.find? (fun p => RVal.eqKey p.1 gid)).isSome then return acc
      else do
        let gidStr ← pyValStr (some gid)
        let gh ← buildGeneHitFromEntry src entry gidStr
        return (acc ++ [(gid, gh)])

/-- The attribute assignments of the ensembl_gene_info branch: each optional
field is filled only when the stored value is falsy.  Assignment bypasses
pydantic validation (validate_assignment is off), so raw values are stored
unvalidated. -/
def infoFill (gh : GeneHit) (entry : RObj) : GeneHit :=
  { gh with
    symbol := pyOr gh.symbol (RObj.get entry "display_name"),
    description := pyOr gh.description (RObj.get entry "description"),
    species := pyOr gh.species (RObj.get entry "species"),
    chromosome := pyOr gh.chromosome (RObj.get entry "seq_region_name"),
    start := pyOr gh.start (RObj.get entry "start"),
    «end» := pyOr gh.«end» (RObj.get entry "end") }

/-- The expression taking the stored GeneHit for a key or a freshly
constructed one: a pydantic model instance is always truthy, so the stored
record wins whenever present; the fresh construction validates the
identifier. -/
def storedOrFresh (acc : List (RVal × GeneHit)) (gid : RVal)
    (srcTag : String) : Except String GeneHit :=
  match acc.find? (fun p => RVal.eqKey p.1 gid) with
  | some p => .ok p.2
  | none =>
    match pyValStr (some gid) with
    | .error e => .error e
    | .ok gidStr => .ok { gene_id := gidStr, source := srcTag }

/-- The ensembl_gene_info branch: the raw result is one record; a truthy id
selects the stored GeneHit (or a fresh one with source ensembl), fills its
falsy fields, and stores it back. -/
def fillGeneInfo (acc : List (RVal × GeneHit)) (raw : RVal) :
    Except String (List (RVal × GeneHit)) := do
  let entry ← asDict raw
  match RObj.get entry "id" with
  | none => return acc
  | some gid =>
    if truthyV gid = false then return acc
    else do
      let _ ← checkHashable gid
      let gh0 ← storedOrFresh acc gid "ensembl"
      return dictSet acc gid (infoFill gh0 entry)

/-- The gramene_gene_lookup branch: like the info branch but keyed on gene_id
falling back to id, filling only symbol, description and species; the species
fill reads a nested taxon lookup, evaluated only when the stored species is
falsy. -/
def fillGeneLookup (acc : List (RVal × GeneHit)) (raw : RVal) :
    Except String (List (RVal × GeneHit)) := do
  let entry ← asDict raw
  let gene_id := pyOr (RObj.get entry "gene_id") (RObj.get entry "id")
  match gene_id with
  | none => return acc
  | some gid =>
    if truthyV gid = false then return acc
    else do
      let _ ← checkHashable gid
      let gh0 ← storedOrFresh acc gid "gramene"
      let species ← pyOrE gh0.species (nestedGetD entry "taxon" "scientific_name")
      let gh1 := { gh0 with
        symbol := pyOr gh0.symbol (RObj.get entry "symbol"),
        description := pyOr gh0.description (RObj.get entry "name"),
        species := species }
      return dictSet acc gid gh1

/-- The expression hom.get with key target and an empty-dict default: a
missing key yields the empty dict, a non-dict value raises when .get is
called on it in the next step. -/
def getTargetObj (hom : RObj) : Except String RObj :=
  match RObj.get hom "target" with
  | none => .ok []
  | some (.o f) => .ok f
  | some _ => .error "AttributeError: value has no attribute get"

/-- One homology record of the ensembl_orthologs branch: the target subobject
(defaulting to an empty dict) provides the fields; a truthy unseen id inserts
a fresh validated GeneHit with source ensembl and no description. -/
def processOrthologEntry (acc : List (RVal × GeneHit)) (homRaw : RVal) :
    Except String (List (RVal × GeneHit)) := do
  let hom ← asDict homRaw
  let tgt ← getTargetObj hom
  match RObj.get tgt "id" with
  | none => return acc
  | some gid =>
    if truthyV gid = false then return acc
    else do
      let _ ← checkHashable gid
      if (acc.find? (fun p => RVal.eqKey p.1 gid)).isSome then return acc
      else do
        let gidStr ← pyValStr (some gid)
        let symbol ← pyFieldStr (RObj.get tgt "gene_symbol")
        let species ← pyFieldStr (RObj.get tgt "species")
        let chromosome ← pyFieldStr (RObj.get tgt "chromosome")
        let start ← pyFieldInt (RObj.get tgt "start")
        let endv ← pyFieldInt (RObj.get tgt "end")
        let gh : GeneHit := {
          gene_id := gidStr, symbol := symbol,
          species := species, chromosome := chromosome, start := start,
          «end» := endv, source := "ensembl" }
        return (acc ++ [(gid, gh)])

/-- The GWASHit constructor call of the gwas branch.  The entry must be a
dict for the keyword computations (all flat lookups with defaults, which
cannot raise); pydantic then ignores the unknown keywords p_value, odds_ratio,
confidence_interval, study and population and rejects the call because the
required fields gene_name and pvalue are not among the supplied keywords, so
construction raises unconditionally. -/
def buildGWASHit (entryRaw : RVal) : Except String GWASHit := do
  let _ ← asDict entryRaw
  Except.error "ValidationError: GWASHit fields gene_name, pvalue required"

/-- The GOAnnot constructor call of the quickgo branch: the keywords evidence
and assigned_by are not fields of the model and are ignored (their values are
flat lookups that cannot raise); term and aspect are validated optional
strings defaulting to the empty string. -/
def buildGOAnnot (entryRaw : RVal) : Except String GOAnnot := do
  let entry ← asDict entryRaw
  let term ← pyValStrOpt (some (RObj.getD entry "term" (.s "")))
  let aspect ← pyValStrOpt (some (RObj.getD entry "aspect" (.s "")))
  return { term := term, aspect := aspect }

/-- The Pathway constructor call of the kegg branch: the keyword name is not
a field of the model and is ignored; the pathway id must be a string. -/
def buildPathway (pRaw : RVal) : Except String Pathway := do
  let pid ← pyValStr (some pRaw)
  return { pathway_id := pid, description := some "" }

/-- The PubMedSummary constructor call of the pubmed_search branch: each
iterated pmid must be a string; title and abstract are passed as empty
strings. -/
def buildPubMedFromId (pmRaw : RVal) : Except String PubMedSummary := do
  let pmid ← pyValStr (some pmRaw)
  return { pmid := pmid, title := "", abstract := some "" }

/-- The PubMedSummary constructor call of the pubmed_fetch_summaries branch:
pmid comes from elocationid, all three lookups default to the empty string. -/
def buildPubMedFromEntry (entryRaw : RVal) : Except String PubMedSummary := do
  let entry ← asDict entryRaw
  let pmid ← pyValStr (some (RObj.getD entry "elocationid" (.s "")))
  let title ← pyValStr (some (RObj.getD entry "title" (.s "")))
  let abstract ← pyValStrOpt (some (RObj.getD entry "abstract" (.s "")))
  return { pmid := pmid, title := title, abstract := abstract }

/-- The per-tool dispatch of the mapper, the if/elif chain over tool_name in
convert_to_structured_result.  Tools without a branch (gwas_trait_info,
kegg_gene_info, kegg_convert_id and any unknown name) fall through and
contribute no evidence. -/
def mapRaw (tool_name : String) (raw : RVal) (ev : EvidenceState) :
    Except String EvidenceState :=
  if tool_name ∈ geneListTools then do
    let entries ← pyIter raw
    let seen ← entries.foldlM (processGeneListEntry (geneListSource tool_name))
      ev.seen_genes
    return { ev with seen_genes := seen }
  else if tool_name = "ensembl_gene_info" then do
    let seen ← fillGeneInfo ev.seen_genes raw
    return { ev with seen_genes := seen }
  else if tool_name = "gramene_gene_lookup" then do
    let seen ← fillGeneLookup ev.seen_genes raw
    return { ev with seen_genes := seen }
  else if tool_name = "ensembl_orthologs" then do
    let obj ← asDict raw
    let homs ← pyIter (RObj.getD obj "orthologs" (.l []))
    let seen ← homs.foldlM processOrthologEntry ev.seen_genes
    return { ev with seen_genes := seen }
  else if tool_name = "pubmed_search" then do
    let pmids ← pyIter raw
    let summaries ← pmids.foldlM
      (fun l pm => do
        let s ← buildPubMedFromId pm
        pure (l ++ [s])) ev.pubmed_summaries
    return { ev with pubmed_summaries := summaries }
  else if tool_name = "pubmed_fetch_summaries" then do
    let entries ← pyIter raw
    let summaries ← entries.foldlM
      (fun l e => do
        let s ← buildPubMedFromEntry e
        pure (l ++ [s])) ev.pubmed_summaries
    return { ev with pubmed_summaries := summaries }
  else if tool_name ∈ gwasTools then do
    let entries ← pyIter raw
    let hits ← entries.foldlM
      (fun l e => do
        let h ← buildGWASHit e
        pure (l ++ [h])) ev.gwas_hits
    return { ev with gwas_hits := hits }
  else if tool_name = "quickgo_annotations" then do
    let entries ← pyIter raw
    let annots ← entries.foldlM
      (fun l e => do
        let a ← buildGOAnnot e
        pure (l ++ [a])) ev.go_annotations
    return { ev with go_annotations := annots }
  else if tool_name = "kegg_pathways" then do
    let ids ← pyIter raw
    let paths ← ids.foldlM
      (fun l p => do
        let pw ← buildPathway p
        pure (l ++ [pw])) ev.pathways
    return { ev with pathways := paths }
  else return ev

/-- The metadata record appended for every tool result.  The source does not
pass success or error keywords to the constructor, so the model defaults
success true and error none apply even for failed calls; rows_returned uses
len only when the raw result is a list. -/
def metadataOf (tr : ToolResult) : ToolExecutionMetadata :=
  { tool := tr.tool_name,
    execution_time := tr.execution_time,
    prompt_tokens := none,
    completion_tokens := none,
    rows_returned :=
      match tr.result with
      | some (.l items) => some (items.length : Int)
      | _ => none }

/-- The evidence effect of one tool result: failed calls and falsy raw
results are skipped after the metadata append. -/
def evStep (ev : EvidenceState) (tr : ToolResult) : Except String EvidenceState :=
  if !tr.success || !truthy tr.result then .ok ev
  else
    match tr.result with
    | none => .ok ev
    | some raw => mapRaw tr.tool_name raw ev

/-- The full conversion state: evidence plus the metadata list. -/
structure ConvState where
  ev : EvidenceState
  meta : List ToolExecutionMetadata

/-- One iteration of the conversion loop: append the metadata record, then
apply the evidence effect. -/
def processToolResult (st : ConvState) (tr : ToolResult) :
    Except String ConvState :=
  (evStep st.ev tr).map (fun ev =>
    { ev := ev, meta := st.meta ++ [metadataOf tr] })

/-- convert_to_structured_result: fold the loop over the tool results from an
empty state, then flatten the seen_genes dict values into the genes list in
insertion order. -/
def convert_to_structured_result (tool_results : List ToolResult)
    (query : String) : Except String GeneSearchResult :=
  (tool_results.foldlM processToolResult { ev := {}, meta := [] }).map
    (fun st =>
      { user_trait := query,
        genes := st.ev.seen_genes.map (fun p => p.2),
        gwas_hits := st.ev.gwas_hits,
        go_annotations := st.ev.go_annotations,
        pathways := st.ev.pathways,
        pubmed_summaries := st.ev.pubmed_summaries,
        metadata := st.meta })

/-! The planner and the orchestrating search method of worker.py. -/

/-- Outcome of the tool-selection LLM call: a response text, abstracted as a
membership oracle telling which of the known tool names occur in it, or a
raised exception. -/
inductive PlanResponse where
  | text (mentions : String → Bool)
  | exn (msg : String)

/-- determine_tools_to_use: collect the known tool names occurring in the
response text; an empty selection falls back to the fixed five-tool set; and
pubmed_search is prepended whenever absent.  A raised planning exception is
caught and yields the same fallback set. -/
def determine_tools_to_use (plan : PlanResponse) : List String :=
  match plan with
  | .exn _ => fallbackTools
  | .text mentions =>
    let selected := allToolNames.filter mentions
    let selected := if selected.isEmpty then fallbackTools else selected
    if selected.contains "pubmed_search" then selected
    else "pubmed_search" :: selected

/-- Abstracted behavior of the environment during one run: the planned
arguments, duration and wrapper outcome for each tool name (the argument
planning LLM call is itself wrapped in a catch-all and cannot raise). -/
structure ToolEnv where
  args : String → List (String × RVal)
  duration : String → Int
  outcome : String → CallOutcome

/-- Overall outcome of search: the structured result dict, or the
graceful error dict with empty evidence lists built by the except branch. -/
inductive SearchOutcome where
  | success (result : GeneSearchResult)
  | failure (response : GeneSearchResult) (errMsg : String)

/-- The planned call for one selected tool. -/
def plannedCall (env : ToolEnv) (t : String) : ToolCallSpec :=
  { tool_name := t, arguments := env.args t, duration := env.duration t,
    outcome := env.outcome t }

/-- The planned call list for the selected tools, in selection order. -/
def plannedCalls (env : ToolEnv) (selected : List String) : List ToolCallSpec :=
  selected.map (plannedCall env)

/-- Steps 2 to 5 of search, given the selected tool list: execute the calls,
convert, and attach the explanation.  The explanation and quickgo
compatibility steps catch their own exceptions and cannot raise, so the
exceptions reaching the outer except branch are the thread-pool constructor
ValueError (empty call list) and those raised by the conversion; that branch
returns the fixed empty-evidence response.  The telemetry execution_summary
and the quickgo compatibility list carry no claim content and are omitted. -/
def search_with_tools (query : String) (selected : List String) (env : ToolEnv)
    (completion : List Nat) (explanationText : String) : SearchOutcome :=
  match execute_tools_parallel (plannedCalls env selected) completion with
  | .error e => .failure
      { user_trait := query,
        explanation := some ("Search failed due to error: " ++ e) } e
  | .ok raw =>
    match convert_to_structured_result raw query with
    | .ok structured => .success { structured with explanation := some explanationText }
    | .error e => .failure
        { user_trait := query,
          explanation := some ("Search failed due to error: " ++ e) } e

/-- search: select the tools from the planning outcome and run the rest of
the pipeline. -/
def search (query : String) (plan : PlanResponse) (env : ToolEnv)
    (completion : List Nat) (explanationText : String) : SearchOutcome :=
  search_with_tools query (determine_tools_to_use plan) env completion
    explanationText

/-! Reduction lemmas for the Except monad used throughout the proofs. -/

/-- Pure in Except is ok. -/
theorem except_pure_eq {α : Type} (x : α) : (pure x : Except String α) = .ok x := rfl

/-- Bind on an ok value applies the continuation. -/
theorem except_bind_ok {α β : Type} (x : α) (f : α → Except String β) :
    (Except.ok x >>= f) = f x := rfl

/-- Bind on an error propagates the error. -/
theorem except_bind_error {α β : Type} (e : String) (f : α → Except String β) :
    ((Except.error e : Except String α) >>= f) = .error e := rfl

/-- Map on an ok value applies the function. -/
theorem except_map_ok {α β : Type} (g : α → β) (x : α) :
    Except.map g (Except.ok x : Except String α) = .ok (g x) := rfl

/-- Map on an error propagates the error. -/
theorem except_map_error {α β : Type} (g : α → β) (e : String) :
    Except.map g (Except.error e : Except String α) = .error e := rfl

/-- The conversion loop splits into the evidence fold and the metadata map:
the metadata record of each iteration does not depend on the evidence state,
and a raised exception discards the whole conversion. -/
theorem foldl_loop_eq (results : List ToolResult) (ev : EvidenceState)
    (meta : List ToolExecutionMetadata) :
    results.foldlM processToolResult { ev := ev, meta := meta } =
      (results.foldlM evStep ev).map (fun ev2 =>
        { ev := ev2, meta := meta ++ results.map metadataOf }) := by
  induction results generalizing ev meta with
  | nil => simp [List.foldlM_nil, except_pure_eq, except_map_ok]
  | cons tr rest ih =>
    rw [List.foldlM_cons, List.foldlM_cons]
    cases h : evStep ev tr with
    | error e =>
      simp [processToolResult, h, except_map_error, except_bind_error]
    | ok ev1 =>
      simp only [processToolResult, h, except_map_ok, except_bind_ok, ih,
        List.map_cons]
      cases hr : rest.foldlM evStep ev1 with
      | error e => simp [except_map_error]
      | ok ev2 => simp [except_map_ok]

/-- Conversion in factored form: when the evidence fold succeeds the metadata
list is exactly one record per tool result, in list order. -/
theorem convert_eq (results : List ToolResult) (q : String) :
    convert_to_structured_result results q =
      (results.foldlM evStep {}).map (fun ev =>
        { user_trait := q,
          genes := ev.seen_genes.map (fun p => p.2),
          gwas_hits := ev.gwas_hits,
          go_annotations := ev.go_annotations,
          pathways := ev.pathways,
          pubmed_summaries := ev.pubmed_summaries,
          metadata := results.map metadataOf }) := by
  unfold convert_to_structured_result
  rw [foldl_loop_eq]
  cases results.foldlM evStep {} with
  | error e => simp [except_map_error]
  | ok ev => simp [except_map_ok]

/-- An invariant preserved by every successful step of a fold in the Except
monad is preserved by the whole fold. -/
theorem foldlM_except_inv {α β : Type} (P : β → Prop)
    (f : β → α → Except String β)
    (hf : ∀ b a b2, P b → f b a = .ok b2 → P b2) :
    ∀ (l : List α) (b b2), P b → l.foldlM f b = .ok b2 → P b2 := by
  intro l
  induction l with
  | nil =>
    intro b b2 hb h
    rw [List.foldlM_nil, except_pure_eq] at h
    cases h
    exact hb
  | cons a rest ih =>
    intro b b2 hb h
    rw [List.foldlM_cons] at h
    cases hfa : f b a with
    | error e => rw [hfa, except_bind_error] at h; cases h
    | ok b1 => rw [hfa, except_bind_ok] at h; exact ih b1 b2 (hf b a b1 hb hfa) h

/-- A fold in the Except monad over a list containing an element on which the
step function always errors, errors. -/
theorem foldlM_poison {α β : Type} (f : β → α → Except String β) (x : α)
    (hp : ∀ b, ∃ m, f b x = .error m) :
    ∀ (l : List α), x ∈ l → ∀ b, ∃ m, l.foldlM f b = .error m := by
  intro l
  induction l with
  | nil => intro hx; cases hx
  | cons a rest ih =>
    intro hx b
    rw [List.foldlM_cons]
    cases hfa : f b a with
    | error e => exact ⟨e, by rw [except_bind_error]⟩
    | ok b1 =>
      rw [except_bind_ok]
      rcases List.mem_cons.mp hx with rfl | hmem
      · obtain ⟨m, hm⟩ := hp b
        rw [hfa] at hm
        cases hm
      · exact ih hmem b1

/-! Invariant of the seen_genes dict: keys are the stored identifiers as
string values and no key repeats.  This yields the dedup guarantee on the
final genes list. -/

/-- The seen_genes dict is keyed by the string raw value of the stored gene
identifier. -/
def seenKeyed (acc : List (RVal × GeneHit)) : Prop :=
  ∀ p ∈ acc, p.1 = RVal.s p.2.gene_id

/-- Keys are the stored identifiers and no key repeats. -/
def SeenInv (acc : List (RVal × GeneHit)) : Prop :=
  seenKeyed acc ∧ (acc.map (fun p => p.1)).Nodup

/-- A successful required-string validation pins the raw value. -/
theorem pyValStr_ok {v : Option RVal} {s : String} (h : pyValStr v = .ok s) :
    v = some (.s s) := by
  match v with
  | none => cases h
  | some (.s x) =>
    unfold pyValStr at h
    cases h
    rfl
  | some (.i x) => cases h
  | some .null => cases h
  | some (.l xs) => cases h
  | some (.o fs) => cases h

/-- Key equality against a string key holds exactly for the equal string. -/
theorem eqKey_s_iff (x : String) (v : RVal) :
    RVal.eqKey (.s x) v = true ↔ v = .s x := by
  cases v <;> simp [RVal.eqKey]
  exact eq_comm

/-- Key equality is reflexive on string keys. -/
theorem eqKey_refl_s (x : String) : RVal.eqKey (.s x) (.s x) = true := by
  simp [RVal.eqKey]

/-- A failed lookup in a keyed dict means the key is absent. -/
theorem find?_none_key_not_mem {acc : List (RVal × GeneHit)} {gid : RVal}
    (hk : seenKeyed acc)
    (hf : (acc.find? (fun p => RVal.eqKey p.1 gid)).isSome = false) :
    gid ∉ acc.map (fun p => p.1) := by
  intro hmem
  obtain ⟨p, hp, hpk⟩ := List.mem_map.mp hmem
  have hkey := hk p hp
  have hpk2 : RVal.s p.2.gene_id = gid := by rw [← hkey]; exact hpk
  have heq : RVal.eqKey p.1 gid = true := by
    rw [hkey, ← hpk2]
    exact eqKey_refl_s _
  have hsome : (acc.find? (fun p => RVal.eqKey p.1 gid)).isSome :=
    List.find?_isSome.mpr ⟨p, hp, heq⟩
  rw [hf] at hsome
  cases hsome

/-- Appending a fresh correctly-keyed binding preserves the invariant. -/
theorem seenInv_insert {acc : List (RVal × GeneHit)} {gid : RVal} {gh : GeneHit}
    (hinv : SeenInv acc)
    (hf : (acc.find? (fun p => RVal.eqKey p.1 gid)).isSome = false)
    (hgid : gid = .s gh.gene_id) : SeenInv (acc ++ [(gid, gh)]) := by
  obtain ⟨hk, hnd⟩ := hinv
  constructor
  · intro p hp
    rcases List.mem_append.mp hp with h | h
    · exact hk p h
    · rcases List.mem_singleton.mp h with rfl
      exact hgid
  · rw [List.map_append]
    simp only [List.map_cons, List.map_nil]
    rw [List.nodup_append]
    refine ⟨hnd, List.nodup_singleton _, ?_⟩
    intro a ha hb
    rcases List.mem_singleton.mp hb with rfl
    exact find?_none_key_not_mem hk hf ha

/-- Storing a correctly-keyed binding in the dict preserves the invariant. -/
theorem seenInv_dictSet {acc : List (RVal × GeneHit)} {gid : RVal} {gh : GeneHit}
    (hinv : SeenInv acc) (hgid : gid = .s gh.gene_id) :
    SeenInv (dictSet acc gid gh) := by
  unfold dictSet
  by_cases hf : (acc.find? (fun p => RVal.eqKey p.1 gid)).isSome
  · rw [if_pos hf]
    obtain ⟨hk, hnd⟩ := hinv
    constructor
    · intro p hp
      obtain ⟨p0, hp0, hpeq⟩ := List.mem_map.mp hp
      by_cases he : RVal.eqKey p0.1 gid
      · rw [if_pos he] at hpeq
        subst hpeq
        have h1 := hk p0 hp0
        rw [h1] at he
        have h2 := (eqKey_s_iff _ _).mp he
        show p0.1 = RVal.s gh.gene_id
        rw [h1, ← hgid, h2]
      · rw [if_neg he] at hpeq
        subst hpeq
        exact hk p0 hp0
    · have hkeys : (acc.map (fun p => if RVal.eqKey p.1 gid then (p.1, gh) else p)).map
          (fun p => p.1) = acc.map (fun p => p.1) := by
        rw [List.map_map]
        apply List.map_congr_left
        intro p hp
        by_cases he : RVal.eqKey p.1 gid
        · simp [he]
        · simp [he]
      rw [hkeys]
      exact hnd
  · rw [if_neg hf]
    exact seenInv_insert hinv (by simpa using hf) hgid

/-- Inversion of bind in the Except monad on a successful run. -/
theorem except_bind_ok_inv {α β : Type} {x : Except String α}
    {f : α → Except String β} {b : β} (h : (x >>= f) = .ok b) :
    ∃ a, x = .ok a ∧ f a = .ok b := by
  cases x with
  | error e => rw [except_bind_error] at h; cases h
  | ok a => rw [except_bind_ok] at h; exact ⟨a, rfl, h⟩

/-- A successfully built gene-list GeneHit carries the validated identifier
and the branch source tag. -/
theorem build_fields {src : String} {entry : RObj} {gidStr : String}
    {gh : GeneHit} (h : buildGeneHitFromEntry src entry gidStr = .ok gh) :
    gh.gene_id = gidStr ∧ gh.source = src := by
  unfold buildGeneHitFromEntry at h
  obtain ⟨v1, h1, h⟩ := except_bind_ok_inv h
  obtain ⟨v2, h2, h⟩ := except_bind_ok_inv h
  obtain ⟨v3, h3, h⟩ := except_bind_ok_inv h
  obtain ⟨v4, h4, h⟩ := except_bind_ok_inv h
  obtain ⟨v5, h5, h⟩ := except_bind_ok_inv h
  obtain ⟨v6, h6, h⟩ := except_bind_ok_inv h
  obtain ⟨v7, h7, h⟩ := except_bind_ok_inv h
  obtain ⟨v8, h8, h⟩ := except_bind_ok_inv h
  obtain ⟨v9, h9, h⟩ := except_bind_ok_inv h
  rw [except_pure_eq] at h
  cases h
  exact ⟨rfl, rfl⟩

/-- The gene-list branch preserves the dict invariant. -/
theorem processGeneListEntry_inv (src : String) (acc : List (RVal × GeneHit))
    (e : RVal) (acc2 : List (RVal × GeneHit)) (hinv : SeenInv acc)
    (h : processGeneListEntry src acc e = .ok acc2) : SeenInv acc2 := by
  unfold processGeneListEntry at h
  obtain ⟨entry, hd, h⟩ := except_bind_ok_inv h
  cases hgid : pyOr (RObj.get entry "id")
      (pyOr (RObj.get entry "gene_id") (RObj.get entry "_id")) with
  | none =>
    rw [hgid] at h
    simp only [] at h
    rw [except_pure_eq] at h
    cases h
    exact hinv
  | some gid =>
    rw [hgid] at h
    simp only [] at h
    by_cases ht : truthyV gid = false
    · rw [if_pos ht, except_pure_eq] at h
      cases h
      exact hinv
    · rw [if_neg ht] at h
      obtain ⟨u, hch, h⟩ := except_bind_ok_inv h
      by_cases hf : (acc.find? (fun p => RVal.eqKey p.1 gid)).isSome
      · rw [if_pos hf, except_pure_eq] at h
        cases h
        exact hinv
      · rw [if_neg hf] at h
        obtain ⟨gidStr, hstr, h⟩ := except_bind_ok_inv h
        obtain ⟨gh, hb, h⟩ := except_bind_ok_inv h
        rw [except_pure_eq] at h
        cases h
        have hg1 : some gid = some (RVal.s gidStr) := pyValStr_ok hstr
        have hg2 : gid = RVal.s gidStr := by cases hg1; rfl
        have hg3 : gid = RVal.s gh.gene_id := by
          rw [hg2, (build_fields hb).1]
        exact seenInv_insert hinv (by simpa using hf) hg3

/-- The fill step keeps the stored identifier. -/
theorem infoFill_gene_id (gh : GeneHit) (entry : RObj) :
    (infoFill gh entry).gene_id = gh.gene_id := rfl

/-- The stored-or-fresh selection returns a record whose identifier matches
the key, in a correctly keyed dict. -/
theorem storedOrFresh_key {acc : List (RVal × GeneHit)} {gid : RVal}
    {tag : String} {gh0 : GeneHit} (hk : seenKeyed acc)
    (h : storedOrFresh acc gid tag = .ok gh0) : gid = RVal.s gh0.gene_id := by
  unfold storedOrFresh at h
  cases hfind : acc.find? (fun p => RVal.eqKey p.1 gid) with
  | some p =>
    rw [hfind] at h
    cases h
    have hmem := List.mem_of_find?_eq_some hfind
    have hpred := List.find?_some hfind
    have hkp := hk p hmem
    rw [hkp] at hpred
    exact (eqKey_s_iff _ _).mp hpred
  | none =>
    rw [hfind] at h
    cases hstr : pyValStr (some gid) with
    | error e => rw [hstr] at h; cases h
    | ok gidStr =>
      rw [hstr] at h
      cases h
      have hg := pyValStr_ok hstr
      cases hg
      rfl

/-- The ensembl_gene_info branch preserves the dict invariant. -/
theorem fillGeneInfo_inv (acc : List (RVal × GeneHit)) (raw : RVal)
    (acc2 : List (RVal × GeneHit)) (hinv : SeenInv acc)
    (h : fillGeneInfo acc raw = .ok acc2) : SeenInv acc2 := by
  unfold fillGeneInfo at h
  obtain ⟨entry, hd, h⟩ := except_bind_ok_inv h
  cases hgid : RObj.get entry "id" with
  | none =>
    rw [hgid] at h
    simp only [] at h
    rw [except_pure_eq] at h
    cases h
    exact hinv
  | some gid =>
    rw [hgid] at h
    simp only [] at h
    by_cases ht : truthyV gid = false
    · rw [if_pos ht, except_pure_eq] at h
      cases h
      exact hinv
    · rw [if_neg ht] at h
      obtain ⟨u, hch, h⟩ := except_bind_ok_inv h
      obtain ⟨gh0, hgh0, h⟩ := except_bind_ok_inv h
      rw [except_pure_eq] at h
      cases h
      have hkey : gid = RVal.s gh0.gene_id := storedOrFresh_key hinv.1 hgh0
      exact seenInv_dictSet hinv (by rw [infoFill_gene_id]; exact hkey)

/-- The gramene_gene_lookup branch preserves the dict invariant. -/
theorem fillGeneLookup_inv (acc : List (RVal × GeneHit)) (raw : RVal)
    (acc2 : List (RVal × GeneHit)) (hinv : SeenInv acc)
    (h : fillGeneLookup acc raw = .ok acc2) : SeenInv acc2 := by
  unfold fillGeneLookup at h
  obtain ⟨entry, hd, h⟩ := except_bind_ok_inv h
  cases hgid : pyOr (RObj.get entry "gene_id") (RObj.get entry "id") with
  | none =>
    rw [hgid] at h
    simp only [] at h
    rw [except_pure_eq] at h
    cases h
    exact hinv
  | some gid =>
    rw [hgid] at h
    simp only [] at h
    by_cases ht : truthyV gid = false
    · rw [if_pos ht, except_pure_eq] at h
      cases h
      exact hinv
    · rw [if_neg ht] at h
      obtain ⟨u, hch, h⟩ := except_bind_ok_inv h
      obtain ⟨gh0, hgh0, h⟩ := except_bind_ok_inv h
      obtain ⟨spc, hspc, h⟩ := except_bind_ok_inv h
      rw [except_pure_eq] at h
      cases h
      have hkey : gid = RVal.s gh0.gene_id := storedOrFresh_key hinv.1 hgh0
      exact seenInv_dictSet hinv hkey

/-- The ensembl_orthologs branch preserves the dict invariant. -/
theorem processOrthologEntry_inv (acc : List (RVal × GeneHit)) (e : RVal)
    (acc2 : List (RVal × GeneHit)) (hinv : SeenInv acc)
    (h : processOrthologEntry acc e = .ok acc2) : SeenInv acc2 := by
  unfold processOrthologEntry at h
  obtain ⟨hom, hd, h⟩ := except_bind_ok_inv h
  obtain ⟨tgt, htgt, h⟩ := except_bind_ok_inv h
  cases hgid : RObj.get tgt "id" with
  | none =>
    rw [hgid] at h
    simp only [] at h
    rw [except_pure_eq] at h
    cases h
    exact hinv
  | some gid =>
    rw [hgid] at h
    simp only [] at h
    by_cases ht : truthyV gid = false
    · rw [if_pos ht, except_pure_eq] at h
      cases h
      exact hinv
    · rw [if_neg ht] at h
      obtain ⟨u, hch, h⟩ := except_bind_ok_inv h
      by_cases hf : (acc.find? (fun p => RVal.eqKey p.1 gid)).isSome
      · rw [if_pos hf, except_pure_eq] at h
        cases h
        exact hinv
      · rw [if_neg hf] at h
        obtain ⟨gidStr, hstr, h⟩ := except_bind_ok_inv h
        obtain ⟨v1, h1, h⟩ := except_bind_ok_inv h
        obtain ⟨v2, h2, h⟩ := except_bind_ok_inv h
        obtain ⟨v3, h3, h⟩ := except_bind_ok_inv h
        obtain ⟨v4, h4, h⟩ := except_bind_ok_inv h
        obtain ⟨v5, h5, h⟩ := except_bind_ok_inv h
        rw [except_pure_eq] at h
        cases h
        have hg1 := pyValStr_ok hstr
        have hg2 : gid = RVal.s gidStr := by cases hg1; rfl
        exact seenInv_insert hinv (by simpa using hf) hg2

/-- The whole mapper dispatch preserves the dict invariant. -/
theorem mapRaw_inv (tool : String) (raw : RVal) (ev ev2 : EvidenceState)
    (hinv : SeenInv ev.seen_genes) (h : mapRaw tool raw ev = .ok ev2) :
    SeenInv ev2.seen_genes := by
  unfold mapRaw at h
  by_cases h1 : tool ∈ geneListTools
  · rw [if_pos h1] at h
    obtain ⟨entries, he, h⟩ := except_bind_ok_inv h
    obtain ⟨seen2, hs, h⟩ := except_bind_ok_inv h
    rw [except_pure_eq] at h
    cases h
    exact foldlM_except_inv SeenInv (processGeneListEntry (geneListSource tool))
      (fun b a b2 hb hab => processGeneListEntry_inv _ b a b2 hb hab)
      entries ev.seen_genes seen2 hinv hs
  rw [if_neg h1] at h
  by_cases h2 : tool = "ensembl_gene_info"
  · rw [if_pos h2] at h
    obtain ⟨seen2, hs, h⟩ := except_bind_ok_inv h
    rw [except_pure_eq] at h
    cases h
    exact fillGeneInfo_inv ev.seen_genes raw seen2 hinv hs
  rw [if_neg h2] at h
  by_cases h3 : tool = "gramene_gene_lookup"
  · rw [if_pos h3] at h
    obtain ⟨seen2, hs, h⟩ := except_bind_ok_inv h
    rw [except_pure_eq] at h
    cases h
    exact fillGeneLookup_inv ev.seen_genes raw seen2 hinv hs
  rw [if_neg h3] at h
  by_cases h4 : tool = "ensembl_orthologs"
  · rw [if_pos h4] at h
    obtain ⟨obj, ho, h⟩ := except_bind_ok_inv h
    obtain ⟨homs, hh, h⟩ := except_bind_ok_inv h
    obtain ⟨seen2, hs, h⟩ := except_bind_ok_inv h
    rw [except_pure_eq] at h
    cases h
    exact foldlM_except_inv SeenInv processOrthologEntry
      (fun b a b2 hb hab => processOrthologEntry_inv b a b2 hb hab)
      homs ev.seen_genes seen2 hinv hs
  rw [if_neg h4] at h
  by_cases h5 : tool = "pubmed_search"
  · rw [if_pos h5] at h
    obtain ⟨pm, hp, h⟩ := except_bind_ok_inv h
    obtain ⟨ss, hs, h⟩ := except_bind_ok_inv h
    rw [except_pure_eq] at h
    cases h
    exact hinv
  rw [if_neg h5] at h
  by_cases h6 : tool = "pubmed_fetch_summaries"
  · rw [if_pos h6] at h
    obtain ⟨en, hp, h⟩ := except_bind_ok_inv h
    obtain ⟨ss, hs, h⟩ := except_bind_ok_inv h
    rw [except_pure_eq] at h
    cases h
    exact hinv
  rw [if_neg h6] at h
  by_cases h7 : tool ∈ gwasTools
  · rw [if_pos h7] at h
    obtain ⟨en, hp, h⟩ := except_bind_ok_inv h
    obtain ⟨hs2, hs, h⟩ := except_bind_ok_inv h
    rw [except_pure_eq] at h
    cases h
    exact hinv
  rw [if_neg h7] at h
  by_cases h8 : tool = "quickgo_annotations"
  · rw [if_pos h8] at h
    obtain ⟨en, hp, h⟩ := except_bind_ok_inv h
    obtain ⟨an, hs, h⟩ := except_bind_ok_inv h
    rw [except_pure_eq] at h
    cases h
    exact hinv
  rw [if_neg h8] at h
  by_cases h9 : tool = "kegg_pathways"
  · rw [if_pos h9] at h
    obtain ⟨ids, hp, h⟩ := except_bind_ok_inv h
    obtain ⟨pw, hs, h⟩ := except_bind_ok_inv h
    rw [except_pure_eq] at h
    cases h
    exact hinv
  rw [if_neg h9, except_pure_eq] at h
  cases h
  exact hinv

/-- One loop iteration of the conversion preserves the dict invariant. -/
theorem evStep_inv (ev ev2 : EvidenceState) (tr : ToolResult)
    (hinv : SeenInv ev.seen_genes) (h : evStep ev tr = .ok ev2) :
    SeenInv ev2.seen_genes := by
  unfold evStep at h
  by_cases hg : (!tr.success || !truthy tr.result) = true
  · rw [if_pos hg] at h
    cases h
    exact hinv
  · rw [if_neg hg] at h
    cases hr : tr.result with
    | none =>
      rw [hr] at h
      cases h
      exact hinv
    | some raw =>
      rw [hr] at h
      exact mapRaw_inv tr.tool_name raw ev ev2 hinv h

/-- The genes list of every successfully converted aggregate has pairwise
distinct identifiers. -/
theorem convert_gene_ids_nodup (results : List ToolResult) (q : String)
    (r : GeneSearchResult) (h : convert_to_structured_result results q = .ok r) :
    (r.genes.map (fun g => g.gene_id)).Nodup := by
  rw [convert_eq] at h
  cases hf : results.foldlM evStep {} with
  | error e => rw [hf, except_map_error] at h; cases h
  | ok ev =>
    rw [hf, except_map_ok] at h
    cases h
    have hinv : SeenInv ev.seen_genes := by
      refine foldlM_except_inv (fun s => SeenInv s.seen_genes) evStep
        (fun b tr b2 hb hstep => evStep_inv b b2 tr hb hstep)
        results {} ev ?_ hf
      exact ⟨fun p hp => absurd hp (List.not_mem_nil p), List.nodup_nil⟩
    obtain ⟨hk, hnd⟩ := hinv
    have hkeys : ev.seen_genes.map (fun p => p.1) =
        (ev.seen_genes.map (fun p => p.2.gene_id)).map RVal.s := by
      rw [List.map_map]
      exact List.map_congr_left (fun p hp => hk p hp)
    rw [hkeys] at hnd
    have hids := hnd.of_map RVal.s
    simpa [List.map_map] using hids

/-! Claim C2. -/

/-- A call whose wrapper raises a timeout. -/
def c2spec : ToolCallSpec :=
  { tool_name := "pubmed_search", arguments := [], duration := 3,
    outcome := .exn "TimeoutError: request timed out" }

/-- C2: the execution layer does record the failure in the per-call result
dict, but the metadata record appended by the mapper is constructed without
the success and error keywords, so it carries the model defaults success true
and error none instead of success false and the exception message.  The
conversion of one failed pubmed_search call evidences this. -/
theorem c2_failed_call_metadata_defaults :
    (execute_tool_parallel c2spec).success = false ∧
    (execute_tool_parallel c2spec).error = some "TimeoutError: request timed out" ∧
    convert_to_structured_result [execute_tool_parallel c2spec] "salt tolerance" =
      .ok { user_trait := "salt tolerance",
            metadata := [{ tool := "pubmed_search", execution_time := 3,
                           success := true, error := none }] } :=
  ⟨rfl, rfl, rfl⟩

/-! Claim C3. -/

/-- The metadata record of an executed call carries the call tool name. -/
theorem metadataOf_exec_tool (c : ToolCallSpec) :
    (metadataOf (execute_tool_parallel c)).tool = c.tool_name := by
  unfold execute_tool_parallel metadataOf
  by_cases h : c.tool_name ∈ allToolNames
  · rw [if_pos h]
    cases c.outcome <;> rfl
  · rw [if_neg h]

/-- When every completion index is in range the executor produces one result
per index. -/
theorem exec_parallel_length (calls : List ToolCallSpec) (completion : List Nat)
    (h : ∀ i ∈ completion, i < calls.length) :
    (executorResults calls completion).length = completion.length := by
  unfold executorResults
  induction completion with
  | nil => rfl
  | cons i rest ih =>
    have hi : i < calls.length := h i (List.mem_cons_self _ _)
    rw [List.filterMap_cons, List.getElem?_eq_getElem hi]
    simp only [Option.map_some']
    rw [List.length_cons, ih (fun j hj => h j (List.mem_cons_of_mem _ hj))]
    rfl

/-- A successful parallel execution collects exactly the per-index results
(the thread-pool constructor did not raise). -/
theorem execute_tools_parallel_ok {calls : List ToolCallSpec}
    {completion : List Nat} {raws : List ToolResult}
    (hexec : execute_tools_parallel calls completion = .ok raws) :
    raws = executorResults calls completion := by
  unfold execute_tools_parallel at hexec
  by_cases he : calls.isEmpty
  · rw [if_pos he] at hexec
    cases hexec
  · rw [if_neg he] at hexec
    cases hexec
    rfl

/-- C3 amended: every converted aggregate of a successful parallel execution
lists its metadata records in the completion order of the parallel calls (not
the order the planner issued them), and when the completion order is a
permutation of the submission indices there is exactly one record per
invocation. -/
theorem c3_amended_metadata_completion_order (calls : List ToolCallSpec)
    (completion : List Nat) (q : String) (raws : List ToolResult)
    (r : GeneSearchResult)
    (hexec : execute_tools_parallel calls completion = .ok raws)
    (hok : convert_to_structured_result raws q = .ok r) :
    r.metadata.map (fun m => m.tool) =
      completion.filterMap (fun i : Nat =>
        (calls[i]?).map (fun c : ToolCallSpec => c.tool_name)) ∧
    (completion.Perm (List.range calls.length) →
      r.metadata.length = calls.length) := by
  cases execute_tools_parallel_ok hexec
  rw [convert_eq] at hok
  cases hf : (executorResults calls completion).foldlM evStep {} with
  | error e => rw [hf, except_map_error] at hok; cases hok
  | ok ev =>
    rw [hf, except_map_ok] at hok
    cases hok
    constructor
    · show ((executorResults calls completion).map metadataOf).map
        (fun m => m.tool) = _
      rw [List.map_map]
      unfold executorResults
      rw [List.map_filterMap]
      have hfun : (fun i => ((calls[i]?).map execute_tool_parallel).map
          ((fun m => m.tool) ∘ metadataOf)) =
          (fun i : Nat => (calls[i]?).map (fun c : ToolCallSpec => c.tool_name)) := by
        funext i
        rw [Option.map_map]
        cases calls[i]? with
        | none => rfl
        | some c =>
          simp only [Option.map_some']
          show some ((metadataOf (execute_tool_parallel c)).tool) = some c.tool_name
          rw [metadataOf_exec_tool]
      rw [hfun]
    · intro hperm
      show ((executorResults calls completion).map metadataOf).length = _
      rw [List.length_map, exec_parallel_length calls completion
        (fun i hi => List.mem_range.mp (hperm.mem_iff.mp hi)),
        hperm.length_eq, List.length_range]

/-- Two planned calls for the counterexample batch. -/
def c3calls : List ToolCallSpec :=
  [{ tool_name := "pubmed_search", arguments := [], duration := 1,
     outcome := .exn "timeout" },
   { tool_name := "kegg_pathways", arguments := [], duration := 2,
     outcome := .exn "boom" }]

/-- The collected results of the counterexample batch under the completion
order that finishes the second call first. -/
def c3raws : List ToolResult := executorResults c3calls [1, 0]

/-- The converted aggregate of the counterexample batch. -/
def c3result : GeneSearchResult :=
  { user_trait := "q", metadata := c3raws.map metadataOf }

/-- C3 counterexample: the planner issues pubmed_search before kegg_pathways,
the scheduler completes them in the opposite order, and the metadata records
appear in completion order, not issue order. -/
theorem c3_counterexample :
    execute_tools_parallel c3calls [1, 0] = .ok c3raws ∧
    (convert_to_structured_result c3raws "q").map
      (fun r => r.metadata.map (fun m => m.tool)) =
      .ok ["kegg_pathways", "pubmed_search"] ∧
    c3calls.map (fun c => c.tool_name) = ["pubmed_search", "kegg_pathways"] ∧
    (["kegg_pathways", "pubmed_search"] : List String) ≠
      ["pubmed_search", "kegg_pathways"] :=
  ⟨rfl, rfl, rfl, by decide⟩

/-- Witness for the amended C3 theorem at the counterexample batch. -/
theorem c3_witness :
    c3result.metadata.map (fun m => m.tool) =
      [1, 0].filterMap (fun i : Nat =>
        (c3calls[i]?).map (fun c : ToolCallSpec => c.tool_name)) ∧
    c3result.metadata.length = c3calls.length := by
  have h := c3_amended_metadata_completion_order c3calls [1, 0] "q" c3raws
    c3result rfl rfl
  exact ⟨h.1, h.2 (by decide)⟩

/-! Claim C8. -/

/-- C8: a planned call naming a tool absent from the dispatch table yields a
caught failure record (the raised ValueError is absorbed), contributes no
evidence to the aggregate, and leaves the rest of the batch untouched. -/
theorem c8_unknown_tool_skipped (spec : ToolCallSpec)
    (h : spec.tool_name ∉ allToolNames) :
    (execute_tool_parallel spec).success = false ∧
    (execute_tool_parallel spec).result = none ∧
    (execute_tool_parallel spec).error =
      some ("Unknown tool: " ++ spec.tool_name) ∧
    (∀ ev, evStep ev (execute_tool_parallel spec) = .ok ev) := by
  unfold execute_tool_parallel
  rw [if_neg h]
  refine ⟨rfl, rfl, rfl, ?_⟩
  intro ev
  rfl

/-- A planned call naming a tool outside the dispatch table. -/
def c8spec : ToolCallSpec :=
  { tool_name := "frobnicate", arguments := [], duration := 1,
    outcome := .ok (.l []) }

/-- Witness for C8 at a concrete unknown tool name. -/
theorem c8_witness :
    (execute_tool_parallel c8spec).success = false ∧
    (execute_tool_parallel c8spec).result = none ∧
    (execute_tool_parallel c8spec).error = some ("Unknown tool: " ++ "frobnicate") ∧
    (∀ ev, evStep ev (execute_tool_parallel c8spec) = .ok ev) :=
  c8_unknown_tool_skipped c8spec (by decide)

/-! Claim C10. -/

/-- The final pubmed insertion step yields a nonempty list containing
pubmed_search, whatever list it starts from. -/
theorem pubmed_ensured (l : List String) :
    (if l.contains "pubmed_search" then l else "pubmed_search" :: l) ≠ [] ∧
    "pubmed_search" ∈
      (if l.contains "pubmed_search" then l else "pubmed_search" :: l) := by
  by_cases hc : l.contains "pubmed_search"
  · rw [if_pos hc]
    have hm := List.mem_of_elem_eq_true hc
    exact ⟨fun hnil => by simp [hnil] at hm, hm⟩
  · rw [if_neg hc]
    exact ⟨List.cons_ne_nil _ _, List.mem_cons_self _ _⟩

/-- C10: the selected tool list is never empty and always contains
pubmed_search, whatever the planning LLM answers; and a raised planning
exception is absorbed into the fixed fallback set rather than surfacing as an
overall failure. -/
theorem c10_planner_never_empty (plan : PlanResponse) :
    determine_tools_to_use plan ≠ [] ∧
    "pubmed_search" ∈ determine_tools_to_use plan ∧
    (∀ q msg env completion expl,
      search q (.exn msg) env completion expl =
        search_with_tools q fallbackTools env completion expl) := by
  have key : determine_tools_to_use plan ≠ [] ∧
      "pubmed_search" ∈ determine_tools_to_use plan := by
    cases plan with
    | exn m =>
      show fallbackTools ≠ [] ∧ "pubmed_search" ∈ fallbackTools
      exact ⟨by decide, by decide⟩
    | text mentions =>
      exact pubmed_ensured
        (if (allToolNames.filter mentions).isEmpty then fallbackTools
         else allToolNames.filter mentions)
  exact ⟨key.1, key.2, fun q msg env completion expl => rfl⟩

/-! Claim C9. -/

/-- Whether the retry loop ended in a re-raised exception. -/
def isError : Except String RVal → Bool
  | .error _ => true
  | .ok _ => false

/-- A successful attempt stops the retry loop at once, with no further
sleeps. -/
theorem retryFrom_ok (f : Nat → AttemptResult) (i fuel : Nat) (r : RVal)
    (h : f i = .ok r) : retryFrom f i fuel = (.ok r, []) := by
  rw [retryFrom, h]

/-- A failed attempt past the retry bound re-raises at once. -/
theorem retryFrom_exn_stop (f : Nat → AttemptResult) (i fuel : Nat)
    (msg : String) (h : f i = .exn msg) (hgt : _MAX_RETRIES < i + 1) :
    retryFrom f i fuel = (.error msg, []) := by
  rw [retryFrom, h]
  simp only [if_pos hgt]

/-- A failed attempt within the retry bound sleeps for the backoff delay of
this attempt and continues with the next attempt. -/
theorem retryFrom_exn_retry (f : Nat → AttemptResult) (i fuel : Nat)
    (msg : String) (h : f i = .exn msg) (hle : i + 1 ≤ _MAX_RETRIES) :
    retryFrom f i (fuel + 1) =
      ((retryFrom f (i + 1) fuel).1,
        _BACKOFF_BASE ^ i :: (retryFrom f (i + 1) fuel).2) := by
  rw [retryFrom, h]
  simp only [if_neg (show ¬ (_MAX_RETRIES < i + 1) from by omega)]

/-- C9 amended: both HTTP helpers implement the same loop; on persistent
transport failure it makes four attempts in all (one initial plus
_MAX_RETRIES retries), sleeping 2 to the power (attempt - 1) seconds before
each retry, that is 1 s, 2 s and 4 s, then re-raises; a success at attempt j
stops the loop after only the first j backoff delays. -/
theorem c9_amended_retry_schedule (f : Nat → AttemptResult) :
    ((attemptFails (f 0) = true ∧ attemptFails (f 1) = true ∧
      attemptFails (f 2) = true ∧ attemptFails (f 3) = true) →
      isError (http_get_retry f).1 = true ∧ (http_get_retry f).2 = [1, 2, 4]) ∧
    (∀ (j : Nat) (r : RVal), j ≤ 3 → f j = .ok r →
      (∀ k, k < j → attemptFails (f k) = true) →
      http_get_retry f =
        (.ok r, (List.range j).map (fun k => _BACKOFF_BASE ^ k))) ∧
    (∀ g, http_post_retry g = http_get_retry g) := by
  refine ⟨?_, ?_, fun g => rfl⟩
  · rintro ⟨h0, h1, h2, h3⟩
    cases hf0 : f 0 with
    | ok r => rw [hf0] at h0; cases h0
    | exn m0 =>
    cases hf1 : f 1 with
    | ok r => rw [hf1] at h1; cases h1
    | exn m1 =>
    cases hf2 : f 2 with
    | ok r => rw [hf2] at h2; cases h2
    | exn m2 =>
    cases hf3 : f 3 with
    | ok r => rw [hf3] at h3; cases h3
    | exn m3 =>
    have e0 := retryFrom_exn_retry f 0 2 m0 hf0 (by decide)
    have e1 := retryFrom_exn_retry f 1 1 m1 hf1 (by decide)
    have e2 := retryFrom_exn_retry f 2 0 m2 hf2 (by decide)
    have e3 := retryFrom_exn_stop f 3 0 m3 hf3 (by decide)
    show isError (retryFrom f 0 3).1 = true ∧ (retryFrom f 0 3).2 = [1, 2, 4]
    rw [e0, e1, e2, e3]
    exact ⟨rfl, rfl⟩
  · intro j r hj hok hprev
    interval_cases j
    · show retryFrom f 0 3 = _
      rw [retryFrom_ok f 0 3 r hok]
      rfl
    · cases hf0 : f 0 with
      | ok r0 => have := hprev 0 (by decide); rw [hf0] at this; cases this
      | exn m0 =>
        have e0 := retryFrom_exn_retry f 0 2 m0 hf0 (by decide)
        show retryFrom f 0 3 = _
        rw [e0, retryFrom_ok f 1 2 r hok]
        rfl
    · cases hf0 : f 0 with
      | ok r0 => have := hprev 0 (by decide); rw [hf0] at this; cases this
      | exn m0 =>
      cases hf1 : f 1 with
      | ok r1 => have := hprev 1 (by decide); rw [hf1] at this; cases this
      | exn m1 =>
        have e0 := retryFrom_exn_retry f 0 2 m0 hf0 (by decide)
        have e1 := retryFrom_exn_retry f 1 1 m1 hf1 (by decide)
        show retryFrom f 0 3 = _
        rw [e0, e1, retryFrom_ok f 2 1 r hok]
        rfl
    · cases hf0 : f 0 with
      | ok r0 => have := hprev 0 (by decide); rw [hf0] at this; cases this
      | exn m0 =>
      cases hf1 : f 1 with
      | ok r1 => have := hprev 1 (by decide); rw [hf1] at this; cases this
      | exn m1 =>
      cases hf2 : f 2 with
      | ok r2 => have := hprev 2 (by decide); rw [hf2] at this; cases this
      | exn m2 =>
        have e0 := retryFrom_exn_retry f 0 2 m0 hf0 (by decide)
        have e1 := retryFrom_exn_retry f 1 1 m1 hf1 (by decide)
        have e2 := retryFrom_exn_retry f 2 0 m2 hf2 (by decide)
        show retryFrom f 0 3 = _
        rw [e0, e1, e2, retryFrom_ok f 3 0 r hok]
        rfl

/-- Attempts that fail three times and succeed on the fourth try. -/
def c9succAttempts : Nat → AttemptResult :=
  fun k => if k == 2 then .ok (.s "pong") else .exn "ConnectionError"

/-- Witness for the amended C9 theorem: the always-failing run sleeps 1, 2
and 4 seconds and re-raises; a run succeeding at the third attempt sleeps
only 1 and 2 seconds. -/
theorem c9_witness :
    (isError (http_get_retry (fun _ => .exn "ConnectionError")).1 = true ∧
      (http_get_retry (fun _ => .exn "ConnectionError")).2 = [1, 2, 4]) ∧
    http_get_retry c9succAttempts = (.ok (.s "pong"), [1, 2]) := by
  constructor
  · exact (c9_amended_retry_schedule (fun _ => .exn "ConnectionError")).1
      ⟨rfl, rfl, rfl, rfl⟩
  · exact (c9_amended_retry_schedule c9succAttempts).2.1 2 (.s "pong")
      (by decide) rfl (by intro k hk; interval_cases k <;> rfl)

/-- C9 counterexample: the backoff schedule of the helpers starts at 1 second
(2 to the power 0), not at a 2-second base; a 2-second doubling schedule
would sleep 2, 4 and 8 seconds. -/
theorem c9_counterexample :
    (http_get_retry (fun _ => .exn "ConnectionError")).2 = [1, 2, 4] ∧
    ([1, 2, 4] : List Nat) ≠ [2, 4, 8] ∧
    ((http_get_retry (fun _ => .exn "ConnectionError")).2).head? = some 1 ∧
    (1 : Nat) ≠ 2 :=
  ⟨rfl, by decide, rfl, by decide⟩

/-! Claim C7. -/

/-- Whether search took the success branch. -/
def isSuccess : SearchOutcome → Bool
  | .success _ => true
  | .failure _ _ => false

/-- The number of metadata records in the returned response. -/
def outcomeMetaCount : SearchOutcome → Nat
  | .success r => r.metadata.length
  | .failure r _ => r.metadata.length

/-- An environment whose wrapper calls all fail with a connection error. -/
def c7env : ToolEnv :=
  { args := fun _ => [], duration := fun _ => 1,
    outcome := fun _ => .exn "ConnectionError" }

/-- C7 counterexample: when the planning LLM mentions no tool the run does
not execute zero calls; the five-tool fallback is executed and five metadata
records appear, and the run is still marked successful. -/
theorem c7_counterexample :
    determine_tools_to_use (.text (fun _ => false)) = fallbackTools ∧
    fallbackTools.length = 5 ∧
    isSuccess (search "q" (.text (fun _ => false)) c7env [0, 1, 2, 3, 4]
      "expl") = true ∧
    outcomeMetaCount (search "q" (.text (fun _ => false)) c7env [0, 1, 2, 3, 4]
      "expl") = 5 ∧
    (5 : Nat) ≠ 0 :=
  ⟨rfl, rfl, rfl, rfl, by decide⟩

/-- The ValueError message of the thread-pool constructor on an empty call
list. -/
def c7failMsg : String := "ValueError: max_workers must be greater than 0"

/-- The graceful failure response a zero-call run would return. -/
def c7failResp (q : String) : GeneSearchResult :=
  { user_trait := q,
    explanation := some ("Search failed due to error: " ++ c7failMsg) }

/-- C7 amended: an empty LLM selection is replaced by the five-tool fallback,
so the executed list is never empty; and a run over an empty executed tool
list would not be an empty-but-successful result: the thread-pool
constructor raises ValueError and the run returns the overall-failure
response. -/
theorem c7_amended_empty_selection_fallback :
    (∀ mentions : String → Bool, (∀ t ∈ allToolNames, mentions t = false) →
      determine_tools_to_use (.text mentions) = fallbackTools) ∧
    (∀ (q : String) (env : ToolEnv) (expl : String) (completion : List Nat),
      execute_tools_parallel (plannedCalls env []) completion =
        .error c7failMsg ∧
      search_with_tools q [] env completion expl =
        .failure (c7failResp q) c7failMsg) := by
  constructor
  · intro mentions hm
    have hfil : allToolNames.filter mentions = [] :=
      List.filter_eq_nil_iff.mpr (fun a ha => by rw [hm a ha]; exact
        Bool.false_ne_true)
    simp [determine_tools_to_use, hfil]
    decide
  · intro q env expl completion
    exact ⟨rfl, rfl⟩

/-- Witness for the amended C7 theorem at an all-silent planner response and
a concrete environment. -/
theorem c7_witness :
    determine_tools_to_use (.text (fun _ => false)) = fallbackTools ∧
    search_with_tools "q" [] c7env [] "expl" =
      .failure (c7failResp "q") c7failMsg :=
  ⟨c7_amended_empty_selection_fallback.1 (fun _ => false) (fun _ _ => rfl),
   (c7_amended_empty_selection_fallback.2 "q" c7env "expl" []).2⟩

/-- Forward evaluation of the gene-list branch: a record with no identifier
after the fallback chain is skipped. -/
theorem geneList_skip_none (src : String) (acc : List (RVal × GeneHit))
    (e : RVal) (entry : RObj) (hd : asDict e = .ok entry)
    (hgid : pyOr (RObj.get entry "id")
      (pyOr (RObj.get entry "gene_id") (RObj.get entry "_id")) = none) :
    processGeneListEntry src acc e = .ok acc := by
  unfold processGeneListEntry
  rw [hd, except_bind_ok, hgid]
  rfl

/-- Forward evaluation of the gene-list branch: a falsy identifier is
skipped. -/
theorem geneList_skip_falsy (src : String) (acc : List (RVal × GeneHit))
    (e : RVal) (entry : RObj) (gid : RVal) (hd : asDict e = .ok entry)
    (hgid : pyOr (RObj.get entry "id")
      (pyOr (RObj.get entry "gene_id") (RObj.get entry "_id")) = some gid)
    (ht : truthyV gid = false) :
    processGeneListEntry src acc e = .ok acc := by
  unfold processGeneListEntry
  rw [hd, except_bind_ok, hgid]
  simp only []
  rw [if_pos ht]
  rfl

/-- Forward evaluation of the gene-list branch: a record whose truthy
identifier is already stored is dropped whole, leaving the store
untouched. -/
theorem geneList_drop_dup (src : String) (acc : List (RVal × GeneHit))
    (e : RVal) (entry : RObj) (gid : RVal) (hd : asDict e = .ok entry)
    (hgid : pyOr (RObj.get entry "id")
      (pyOr (RObj.get entry "gene_id") (RObj.get entry "_id")) = some gid)
    (ht : truthyV gid = true) (hch : checkHashable gid = .ok ())
    (hf : (acc.find? (fun p => RVal.eqKey p.1 gid)).isSome = true) :
    processGeneListEntry src acc e = .ok acc := by
  unfold processGeneListEntry
  rw [hd, except_bind_ok, hgid]
  simp only []
  rw [if_neg (show ¬ truthyV gid = false by rw [ht]; decide), hch,
    except_bind_ok, if_pos hf]
  rfl

/-- Forward evaluation of the gene-list branch: an unseen truthy identifier
inserts the freshly built record at the end of the store. -/
theorem geneList_insert (src : String) (acc : List (RVal × GeneHit))
    (e : RVal) (entry : RObj) (gid : RVal) (gidStr : String) (gh : GeneHit)
    (hd : asDict e = .ok entry)
    (hgid : pyOr (RObj.get entry "id")
      (pyOr (RObj.get entry "gene_id") (RObj.get entry "_id")) = some gid)
    (ht : truthyV gid = true) (hch : checkHashable gid = .ok ())
    (hf : (acc.find? (fun p => RVal.eqKey p.1 gid)).isSome = false)
    (hstr : pyValStr (some gid) = .ok gidStr)
    (hb : buildGeneHitFromEntry src entry gidStr = .ok gh) :
    processGeneListEntry src acc e = .ok (acc ++ [(gid, gh)]) := by
  unfold processGeneListEntry
  rw [hd, except_bind_ok, hgid]
  simp only []
  rw [if_neg (show ¬ truthyV gid = false by rw [ht]; decide), hch,
    except_bind_ok, if_neg (show ¬ ((acc.find?
      (fun p => RVal.eqKey p.1 gid)).isSome = true) by simp [hf]),
    hstr, except_bind_ok, hb, except_bind_ok]
  rfl

/-! Claim C1. -/

/-- The first raw record of the duplicate-gene scenario. -/
def c1entryA : RVal := .o [("id", .s "G1"), ("description", .s "desc")]

/-- The second raw record of the duplicate-gene scenario, same identifier. -/
def c1entryB : RVal := .o [("id", .s "G1"), ("symbol", .s "SYM")]

/-- The scenario batch: the two records arrive from two gene-list tools. -/
def c1batch : List ToolResult :=
  [execute_tool_parallel {
     tool_name := "ensembl_search_genes", arguments := [], duration := 1,
     outcome := .ok (.l [c1entryA]) },
   execute_tool_parallel {
     tool_name := "gramene_gene_search", arguments := [], duration := 1,
     outcome := .ok (.l [c1entryB]) }]

/-- What the code stores: the GeneHit built from the first record only. -/
def c1hitStored : GeneHit :=
  { gene_id := "G1", description := some (.s "desc"), source := "ensembl" }

/-- What the claim predicts: a field-merged GeneHit with both symbol and
description. -/
def c1hitClaimed : GeneHit :=
  { gene_id := "G1", symbol := some (.s "SYM"),
    description := some (.s "desc"), source := "ensembl" }

/-- C1 counterexample: mapping the scenario yields one GeneHit built from the
first record, with no symbol; the later record was dropped whole, not merged
field-by-field. -/
theorem c1_counterexample :
    (convert_to_structured_result c1batch "G1 query").map (fun r => r.genes) =
      .ok [c1hitStored] ∧
    c1hitStored.symbol = none ∧
    c1hitClaimed.symbol = some (.s "SYM") ∧
    c1hitStored ≠ c1hitClaimed := by
  refine ⟨?_, rfl, rfl, fun h => ?_⟩
  · rfl
  · have hs : (none : Option RVal) = some (.s "SYM") :=
      congrArg GeneHit.symbol h
    cases hs

/-- C1 amended: in the gene-list branch a record whose identifier is already
stored is dropped entirely, so no field of the stored record is ever
overwritten or filled from it; field-by-field first-non-empty filling exists
only in the ensembl_gene_info (and gramene_gene_lookup) branch, where a
truthy stored field is kept and a falsy one is filled from the new record. -/
theorem c1_amended_dedup_drops_later_records :
    (∀ (src : String) (acc : List (RVal × GeneHit)) (entryRaw : RVal)
      (entry : RObj) (gid : RVal),
      asDict entryRaw = .ok entry →
      pyOr (RObj.get entry "id")
        (pyOr (RObj.get entry "gene_id") (RObj.get entry "_id")) = some gid →
      truthyV gid = true →
      checkHashable gid = .ok () →
      (acc.find? (fun p => RVal.eqKey p.1 gid)).isSome = true →
      processGeneListEntry src acc entryRaw = .ok acc) ∧
    (∀ (gh : GeneHit) (entry : RObj),
      (truthy gh.symbol = true → (infoFill gh entry).symbol = gh.symbol) ∧
      (truthy gh.symbol = false →
        (infoFill gh entry).symbol = RObj.get entry "display_name") ∧
      (truthy gh.description = true →
        (infoFill gh entry).description = gh.description) ∧
      (truthy gh.description = false →
        (infoFill gh entry).description = RObj.get entry "description") ∧
      (truthy gh.species = true → (infoFill gh entry).species = gh.species) ∧
      (truthy gh.chromosome = true →
        (infoFill gh entry).chromosome = gh.chromosome) ∧
      (truthy gh.start = true → (infoFill gh entry).start = gh.start) ∧
      (truthy gh.«end» = true → (infoFill gh entry).«end» = gh.«end»)) := by
  constructor
  · intro src acc entryRaw entry gid hd hgid htr hch hf
    exact geneList_drop_dup src acc entryRaw entry gid hd hgid htr hch hf
  · intro gh entry
    refine ⟨fun h => ?_, fun h => ?_, fun h => ?_, fun h => ?_, fun h => ?_,
      fun h => ?_, fun h => ?_, fun h => ?_⟩ <;>
      simp [infoFill, pyOr, h]

/-- Witness for the amended C1 theorem: the scenario duplicate is dropped
against a store already holding G1, and the info-branch fill keeps a
populated description. -/
theorem c1_witness :
    processGeneListEntry "gramene" [(.s "G1", c1hitStored)] c1entryB =
      .ok [(.s "G1", c1hitStored)] ∧
    (infoFill c1hitStored [("description", RVal.s "other")]).description =
      c1hitStored.description :=
  ⟨c1_amended_dedup_drops_later_records.1 "gramene" [(.s "G1", c1hitStored)]
      c1entryB [("id", RVal.s "G1"), ("symbol", RVal.s "SYM")] (.s "G1")
      rfl rfl rfl rfl rfl,
   (c1_amended_dedup_drops_later_records.2 c1hitStored
      [("description", RVal.s "other")]).2.2.1 rfl⟩

/-! Claim C6. -/

/-- C6: merging the same gene record again is a no-op (the stored record is
unchanged, byte-for-byte the one produced by the first merge), and the genes
list of every successfully converted aggregate never holds two entries with
the same identifier. -/
theorem c6_dedup_idempotent_and_unique :
    (∀ (src : String) (acc : List (RVal × GeneHit)) (e : RVal)
      (acc2 : List (RVal × GeneHit)),
      processGeneListEntry src acc e = .ok acc2 →
      processGeneListEntry src acc2 e = .ok acc2) ∧
    (∀ (results : List ToolResult) (q : String) (r : GeneSearchResult),
      convert_to_structured_result results q = .ok r →
      (r.genes.map (fun g => g.gene_id)).Nodup) := by
  constructor
  · intro src acc e acc2 h
    unfold processGeneListEntry at h
    obtain ⟨entry, hd, h⟩ := except_bind_ok_inv h
    cases hgid : pyOr (RObj.get entry "id")
        (pyOr (RObj.get entry "gene_id") (RObj.get entry "_id")) with
    | none =>
      rw [hgid] at h
      simp only [] at h
      rw [except_pure_eq] at h
      cases h
      exact geneList_skip_none src acc e entry hd hgid
    | some gid =>
      rw [hgid] at h
      simp only [] at h
      by_cases ht : truthyV gid = false
      · rw [if_pos ht, except_pure_eq] at h
        cases h
        exact geneList_skip_falsy src acc e entry gid hd hgid ht
      · have ht2 : truthyV gid = true := by
          revert ht
          cases truthyV gid <;> simp
        rw [if_neg ht] at h
        cases hch : checkHashable gid with
        | error m => rw [hch, except_bind_error] at h; cases h
        | ok u =>
          cases u
          rw [hch, except_bind_ok] at h
          by_cases hf : (acc.find? (fun p => RVal.eqKey p.1 gid)).isSome
          · rw [if_pos hf, except_pure_eq] at h
            cases h
            exact geneList_drop_dup src acc e entry gid hd hgid ht2 hch hf
          · rw [if_neg hf] at h
            cases hstr : pyValStr (some gid) with
            | error m => rw [hstr, except_bind_error] at h; cases h
            | ok gidStr =>
              rw [hstr, except_bind_ok] at h
              cases hb : buildGeneHitFromEntry src entry gidStr with
              | error m => rw [hb, except_bind_error] at h; cases h
              | ok gh =>
                rw [hb, except_bind_ok, except_pure_eq] at h
                cases h
                have hgid2 : gid = RVal.s gidStr := by
                  have hv := pyValStr_ok hstr
                  cases hv
                  rfl
                have hnone : acc.find? (fun p => RVal.eqKey p.1 gid) =
                    none := by
                  cases hx : acc.find? (fun p => RVal.eqKey p.1 gid) with
                  | none => rfl
                  | some p => rw [hx] at hf; simp at hf
                have hfind : ((acc ++ [(gid, gh)]).find?
                    (fun p => RVal.eqKey p.1 gid)).isSome = true := by
                  rw [List.find?_append, hnone]
                  simp [List.find?_cons, hgid2, eqKey_refl_s]
                exact geneList_drop_dup src (acc ++ [(gid, gh)]) e entry gid
                  hd hgid ht2 hch hfind
  · intro results q r h
    exact convert_gene_ids_nodup results q r h

/-- A raw gene record for the idempotence witness. -/
def c6entry : RVal := .o [("id", .s "OS01G0100100"), ("symbol", .s "HKT1")]

/-- The dict state after the first merge of the witness record. -/
def c6acc : List (RVal × GeneHit) :=
  [(.s "OS01G0100100",
    { gene_id := "OS01G0100100", symbol := some (.s "HKT1"),
      source := "ensembl" })]

/-- A batch presenting the witness record twice through one gene-list
tool. -/
def c6batch : List ToolResult :=
  [execute_tool_parallel {
     tool_name := "ensembl_search_genes", arguments := [], duration := 1,
     outcome := .ok (.l [c6entry, c6entry]) }]

/-- The converted aggregate of the duplicate-record batch. -/
def c6result : GeneSearchResult :=
  { user_trait := "salt tolerance",
    genes := c6acc.map (fun p => p.2),
    metadata := c6batch.map metadataOf }

/-- Witness for C6: the second merge of the same record leaves the store
unchanged, and the aggregate of the duplicate batch carries no repeated
identifier. -/
theorem c6_witness :
    processGeneListEntry "ensembl" c6acc c6entry = .ok c6acc ∧
    (c6result.genes.map (fun g => g.gene_id)).Nodup :=
  ⟨c6_dedup_idempotent_and_unique.1 "ensembl" [] c6entry c6acc rfl,
   c6_dedup_idempotent_and_unique.2 c6batch "salt tolerance" c6result rfl⟩

/-! Claim C5. -/

/-- A failed call contributes nothing to the evidence state. -/
theorem evStep_failed (tr : ToolResult) (hA : tr.success = false) :
    ∀ ev, evStep ev tr = .ok ev := by
  intro ev
  unfold evStep
  rw [if_pos (by rw [hA]; rfl)]

/-- C5 amended: in a two-call batch whose first call failed, a successful
conversion carries exactly one metadata record per call and its evidence
equals what converting the second call alone yields; the failed call
contributes no evidence. -/
theorem c5_amended_failure_isolation (q : String) (specA specB : ToolCallSpec)
    (r : GeneSearchResult)
    (hA : (execute_tool_parallel specA).success = false)
    (hok : convert_to_structured_result
      [execute_tool_parallel specA, execute_tool_parallel specB] q = .ok r) :
    convert_to_structured_result [execute_tool_parallel specB] q =
      .ok { r with metadata := [metadataOf (execute_tool_parallel specB)] } ∧
    r.metadata = [metadataOf (execute_tool_parallel specA),
      metadataOf (execute_tool_parallel specB)] := by
  rw [convert_eq] at hok
  have hfold2 : [execute_tool_parallel specA,
      execute_tool_parallel specB].foldlM evStep ({} : EvidenceState) =
      [execute_tool_parallel specB].foldlM evStep ({} : EvidenceState) := by
    rw [List.foldlM_cons, evStep_failed (execute_tool_parallel specA) hA,
      except_bind_ok]
  rw [hfold2] at hok
  cases hf : [execute_tool_parallel specB].foldlM evStep
      ({} : EvidenceState) with
  | error e => rw [hf, except_map_error] at hok; cases hok
  | ok ev =>
    rw [hf, except_map_ok] at hok
    cases hok
    constructor
    · rw [convert_eq, hf, except_map_ok]
      rfl
    · rfl

/-- The failing first call of the isolation batch. -/
def c5specA : ToolCallSpec :=
  { tool_name := "pubmed_search", arguments := [], duration := 1,
    outcome := .exn "TimeoutError: timed out" }

/-- The succeeding second call of the isolation batch. -/
def c5specB : ToolCallSpec :=
  { tool_name := "kegg_pathways", arguments := [], duration := 2,
    outcome := .ok (.l [.s "path:00910"]) }

/-- The converted aggregate of the isolation batch. -/
def c5rAB : GeneSearchResult :=
  { user_trait := "salt query",
    pathways := [{ pathway_id := "path:00910", description := some "" }],
    metadata := [metadataOf (execute_tool_parallel c5specA),
      metadataOf (execute_tool_parallel c5specB)] }

/-- Witness for the amended C5 theorem: the timed-out pubmed call leaves the
kegg evidence and contributes only its metadata record. -/
theorem c5_witness :
    convert_to_structured_result [execute_tool_parallel c5specB]
      "salt query" =
      .ok { c5rAB with metadata := [metadataOf (execute_tool_parallel c5specB)] } ∧
    c5rAB.metadata = [metadataOf (execute_tool_parallel c5specA),
      metadataOf (execute_tool_parallel c5specB)] :=
  c5_amended_failure_isolation "salt query" c5specA c5specB c5rAB rfl rfl

/-- An environment where pubmed_search times out and gwas_trait_search
succeeds with one association row. -/
def c5env : ToolEnv :=
  { args := fun _ => [],
    duration := fun t => if t == "pubmed_search" then 1 else 2,
    outcome := fun t => if t == "gwas_trait_search" then .ok (.l [.o []])
      else .exn "TimeoutError: timed out" }

/-- The validation error message raised by the GWAS mapping branch. -/
def c5failMsg : String :=
  "ValidationError: GWASHit fields gene_name, pvalue required"

/-- The graceful failure response returned for the poisoned batch. -/
def c5failResp : GeneSearchResult :=
  { user_trait := "q",
    explanation := some ("Search failed due to error: " ++ c5failMsg) }

/-- C5 counterexample: when the succeeding tool of the batch is a GWAS tool
with a non-empty result, the conversion raises and the run returns the
overall-failure response, so the aggregate holds neither the successful
evidence nor the two per-call records. -/
theorem c5_counterexample :
    search_with_tools "q" ["pubmed_search", "gwas_trait_search"] c5env [0, 1]
      "expl" = .failure c5failResp c5failMsg ∧
    c5failResp.metadata.length = 0 ∧
    c5failResp.gwas_hits = [] ∧
    (0 : Nat) ≠ 2 :=
  ⟨rfl, rfl, rfl, by decide⟩

/-! Claim C4. -/

/-- The overall outcome is the graceful failure response with empty evidence
lists and empty metadata. -/
def isEmptyFailure : SearchOutcome → Prop
  | .failure r _ => r.genes = [] ∧ r.gwas_hits = [] ∧ r.go_annotations = [] ∧
      r.pathways = [] ∧ r.pubmed_summaries = [] ∧ r.metadata = []
  | .success _ => False

/-- Building a GWASHit raises on every entry: a non-dict entry raises in the
keyword computation and a dict entry fails validation for the missing
required fields. -/
theorem buildGWASHit_error (e : RVal) : ∃ m, buildGWASHit e = .error m := by
  cases e with
  | o f => exact ⟨"ValidationError: GWASHit fields gene_name, pvalue required",
      rfl⟩
  | s v => exact ⟨"AttributeError: value has no attribute get", rfl⟩
  | i v => exact ⟨"AttributeError: value has no attribute get", rfl⟩
  | null => exact ⟨"AttributeError: value has no attribute get", rfl⟩
  | l items => exact ⟨"AttributeError: value has no attribute get", rfl⟩

/-- Mapping a non-empty GWAS result list raises whatever the entries are. -/
theorem mapRaw_gwas_error (t : String) (ht : t ∈ gwasTools) (e : RVal)
    (es : List RVal) (ev : EvidenceState) :
    ∃ m, mapRaw t (.l (e :: es)) ev = .error m := by
  have h1 : t ∉ geneListTools := by fin_cases ht <;> decide
  have h2 : ¬ t = "ensembl_gene_info" := by fin_cases ht <;> decide
  have h3 : ¬ t = "gramene_gene_lookup" := by fin_cases ht <;> decide
  have h4 : ¬ t = "ensembl_orthologs" := by fin_cases ht <;> decide
  have h5 : ¬ t = "pubmed_search" := by fin_cases ht <;> decide
  have h6 : ¬ t = "pubmed_fetch_summaries" := by fin_cases ht <;> decide
  obtain ⟨m, hm⟩ := buildGWASHit_error e
  refine ⟨m, ?_⟩
  unfold mapRaw
  rw [if_neg h1, if_neg h2, if_neg h3, if_neg h4, if_neg h5, if_neg h6,
    if_pos ht]
  show (pyIter (.l (e :: es)) >>= fun entries => _) = Except.error m
  rw [show pyIter (.l (e :: es)) = .ok (e :: es) from rfl, except_bind_ok]
  show ((e :: es).foldlM _ ev.gwas_hits >>= fun hits => _) = Except.error m
  rw [List.foldlM_cons]
  show ((buildGWASHit e >>= fun h => pure (ev.gwas_hits ++ [h])) >>= _) >>= _ =
    Except.error m
  rw [hm, except_bind_error, except_bind_error, except_bind_error]

/-- The GWAS-shaped tools are all in the dispatch table. -/
theorem gwas_sub_all {s : String} (h : s ∈ gwasTools) : s ∈ allToolNames := by
  fin_cases h <;> decide

/-- The executed result of a successful known GWAS call with a non-empty
list poisons every evidence state it is folded into. -/
theorem evStep_gwas_error (spec : ToolCallSpec) (ht : spec.tool_name ∈ gwasTools)
    (e : RVal) (es : List RVal) (hout : spec.outcome = .ok (.l (e :: es))) :
    ∀ ev, ∃ m, evStep ev (execute_tool_parallel spec) = .error m := by
  intro ev
  have hall : spec.tool_name ∈ allToolNames := gwas_sub_all ht
  have hexec : execute_tool_parallel spec =
      { tool_name := spec.tool_name, success := true,
        result := some (.l (e :: es)), arguments := spec.arguments,
        execution_time := spec.duration, error := none } := by
    unfold execute_tool_parallel
    rw [if_pos hall, hout]
  rw [hexec]
  unfold evStep
  rw [if_neg (by simp [truthy, truthyV])]
  exact mapRaw_gwas_error spec.tool_name ht e es ev

/-- The graceful failure response built by the except branch of search for a
raised message. -/
def failResp (q m : String) : GeneSearchResult :=
  { user_trait := q,
    explanation := some ("Search failed due to error: " ++ m) }

/-- A run whose parallel execution succeeds but whose conversion raises
returns the graceful failure response built by the except branch. -/
theorem search_with_tools_conv_error (q : String) (selected : List String)
    (env : ToolEnv) (completion : List Nat) (expl : String)
    (raws : List ToolResult) (m : String)
    (hexec : execute_tools_parallel (plannedCalls env selected) completion =
      .ok raws)
    (hconv : convert_to_structured_result raws q = .error m) :
    search_with_tools q selected env completion expl =
      .failure (failResp q m) m := by
  unfold search_with_tools
  rw [hexec]
  simp only []
  rw [hconv]
  rfl

/-- C4: whenever the planner selects a GWAS-shaped tool and its wrapper
succeeds with a non-empty association list, the mapping raises the GWASHit
validation error, the conversion aborts, and the whole search returns the
overall-failure response with empty evidence lists and no metadata,
discarding every other result of the run. -/
theorem c4_gwas_success_poisons_search (q : String) (plan : PlanResponse)
    (env : ToolEnv) (completion : List Nat) (expl : String) (t : String)
    (e : RVal) (es : List RVal)
    (hsel : t ∈ determine_tools_to_use plan) (hgwas : t ∈ gwasTools)
    (hout : env.outcome t = .ok (.l (e :: es)))
    (hperm : completion.Perm
      (List.range (determine_tools_to_use plan).length)) :
    isEmptyFailure (search q plan env completion expl) := by
  obtain ⟨j, hjlen, hjget⟩ := List.mem_iff_getElem.mp hsel
  have hcall : (plannedCalls env (determine_tools_to_use plan))[j]? =
      some (plannedCall env t) := by
    unfold plannedCalls
    rw [List.getElem?_map, List.getElem?_eq_getElem hjlen, hjget]
    rfl
  have hjmem : j ∈ completion :=
    hperm.mem_iff.mpr (List.mem_range.mpr hjlen)
  have htr : execute_tool_parallel (plannedCall env t) ∈
      executorResults (plannedCalls env (determine_tools_to_use plan))
        completion := by
    unfold executorResults
    exact List.mem_filterMap.mpr ⟨j, hjmem, by rw [hcall]; rfl⟩
  have hpoison := evStep_gwas_error (plannedCall env t) hgwas e es hout
  obtain ⟨m, hm⟩ := foldlM_poison evStep _ hpoison _ htr {}
  have hnil : plannedCalls env (determine_tools_to_use plan) ≠ [] := by
    intro h
    exact List.ne_nil_of_mem hsel (List.map_eq_nil.mp h)
  have hne : (plannedCalls env (determine_tools_to_use plan)).isEmpty =
      false := by
    cases hl : (plannedCalls env (determine_tools_to_use plan)).isEmpty
    · rfl
    · exact absurd (List.isEmpty_iff.mp hl) hnil
  have hexec : execute_tools_parallel
      (plannedCalls env (determine_tools_to_use plan)) completion =
      .ok (executorResults (plannedCalls env (determine_tools_to_use plan))
        completion) := by
    unfold execute_tools_parallel
    rw [if_neg (by rw [hne]; decide)]
  have hconv : convert_to_structured_result
      (executorResults (plannedCalls env (determine_tools_to_use plan))
        completion) q = .error m := by
    rw [convert_eq, hm, except_map_error]
  unfold search
  rw [search_with_tools_conv_error q (determine_tools_to_use plan) env
    completion expl _ m hexec hconv]
  exact ⟨rfl, rfl, rfl, rfl, rfl, rfl⟩

/-- An environment where gwas_trait_search yields one association row and
every other wrapper fails. -/
def c4env : ToolEnv :=
  { args := fun _ => [], duration := fun _ => 1,
    outcome := fun t => if t == "gwas_trait_search" then .ok (.l [.o []])
      else .exn "offline" }

/-- Witness for C4: a planning failure selects the fallback set including
gwas_trait_search, the single association row poisons the conversion, and
the search returns the empty failure response. -/
theorem c4_witness :
    isEmptyFailure (search "salt tolerance" (.exn "planner down") c4env
      [0, 1, 2, 3, 4] "expl") :=
  c4_gwas_success_poisons_search "salt tolerance" (.exn "planner down") c4env
    [0, 1, 2, 3, 4] "expl" "gwas_trait_search" (.o []) [] (by decide)
    (by decide) rfl (by decide)

end GeneSearch
